import Mathlib

/-!
Shallow embedding of the `elevator` simulation (src/elevator.py, src/run.py).

Python objects are modelled as immutable Lean structures; mutating methods
become functions returning the updated structure.  A method that can raise
returns the post-state paired with an optional error: the Python raises
happen before any mutation in `up_1`/`down_1`, so on an error the returned
state is the input state, while `move` may have already closed the door and
retargeted before a step raises, which the pair captures faithfully.

Python truthiness of `Optional[int]` (where `0` is falsy, exactly like
`None`) is modelled explicitly by `pyTruthy`, because `is_free` and
`direction` test `self.moving_to` by truthiness, not by `is None`.
-/

namespace ElevatorSim

inductive Direction
  | UP
  | DOWN
  | NOWHERE
deriving DecidableEq

/-- Error kinds.  The Python code raises `ValueError` everywhere; the kinds
are distinguished here by raise site / message, matching the names the
documentation gives them (`InvalidElevatorConfig`, `DoorObstructionError`,
`FloorBoundError`, `NoElevatorsError`). -/
inductive Err
  | invalidConfig
  | doorObstruction
  | floorBound
  | noElevators
deriving DecidableEq

structure Door where
  is_open : Bool
deriving DecidableEq

structure Person where
  name : String
  enter_floor : Int
  exit_floor : Int
  id : Nat
deriving DecidableEq

/-- A Python number as relevant to `Elevator.validate`: an `int`, or some
other numeric (e.g. a `float`, represented exactly as a rational).  Needed
because `validate` checks `type(...) != int`. -/
inductive PyNum
  | pint : Int → PyNum
  | pfloat : Rat → PyNum
deriving DecidableEq

def PyNum.toRat : PyNum → Rat
  | PyNum.pint n => (n : Rat)
  | PyNum.pfloat q => q

def PyNum.isInt : PyNum → Bool
  | PyNum.pint _ => true
  | PyNum.pfloat _ => false

/-- Python truthiness of an `Optional[int]`: `None` and `0` are falsy. -/
def pyTruthy : Option Int → Bool
  | none => false
  | some v => v != 0

structure Elevator where
  door : Door
  floor : Int
  HIGHEST_FLOOR : Int
  LOWEST_FLOOR : Int
  moving_to : Option Int
  people : List Person
  id : Nat
deriving DecidableEq

namespace Elevator

/-- `Elevator.is_free`: `not bool(self.moving_to)`. -/
def is_free (e : Elevator) : Bool :=
  !pyTruthy e.moving_to

/-- `Elevator.stops`: exit floors of the people aboard, in boarding order. -/
def stops (e : Elevator) : List Int :=
  e.people.map Person.exit_floor

/-- `Elevator.direction`: note the first test is `if not self.moving_to`,
so `moving_to == 0` falls into the NOWHERE branch like `None` does. -/
def direction (e : Elevator) : Direction :=
  if !pyTruthy e.moving_to then Direction.NOWHERE
  else
    match e.moving_to with
    | none => Direction.NOWHERE
    | some m =>
      if m > e.floor then Direction.UP
      else if m < e.floor then Direction.DOWN
      else Direction.NOWHERE

/-- `Elevator.people_leaving` as the list of elements the generator ranges
over when the underlying list is not mutated meanwhile. -/
def people_leaving (e : Elevator) : List Person :=
  e.people.filter (fun p => p.exit_floor == e.floor)

/-- `Elevator.move_to`. -/
def move_to (e : Elevator) (floor : Int) : Elevator :=
  { e with moving_to := some floor }

/-- `Elevator.stop_queue`: `None` when nobody is aboard; otherwise the stops
filtered by the side of `floor` on which the oldest request lies (an empty
list when the oldest request is exactly at `floor`). -/
def stop_queue (e : Elevator) : Option (List Int) :=
  match e.stops with
  | [] => none
  | oldest :: _ =>
    if oldest > e.floor then
      some (e.stops.filter (fun f => decide (f > e.floor)))
    else if oldest < e.floor then
      some (e.stops.filter (fun f => decide (f < e.floor)))
    else
      some []

/-- `Elevator.up_1`: raises on an open door, then on the upper bound, and
only then moves; on an error the state is unchanged. -/
def up_1 (e : Elevator) : Elevator × Option Err :=
  if e.door.is_open then (e, some Err.doorObstruction)
  else if e.floor + 1 > e.HIGHEST_FLOOR then (e, some Err.floorBound)
  else ({ e with floor := e.floor + 1 }, none)

/-- `Elevator.down_1`. -/
def down_1 (e : Elevator) : Elevator × Option Err :=
  if e.door.is_open then (e, some Err.doorObstruction)
  else if e.floor - 1 < e.LOWEST_FLOOR then (e, some Err.floorBound)
  else ({ e with floor := e.floor - 1 }, none)

/-- Step 1 of `Elevator.move`: `if self.door.is_open: self.close_door()`. -/
def close_if_open (e : Elevator) : Elevator :=
  if e.door.is_open then { e with door := { is_open := false } } else e

/-- Step 2 of `Elevator.move`: `if stops := self.stop_queue:
self.moving_to = stops[-1]` — the walrus condition is truthy exactly when
`stop_queue` is a non-empty list. -/
def retarget (e : Elevator) : Elevator :=
  match e.stop_queue with
  | none => e
  | some [] => e
  | some (a :: l) =>
    { e with moving_to := some ((a :: l).getLast (List.cons_ne_nil a l)) }

/-- `Elevator.move`, one simulation tick: close the door if open; if the
stop queue is truthy (a non-empty list) retarget to its last element; then
step by `direction`, clearing `moving_to` in the NOWHERE case. -/
def move (e : Elevator) : Elevator × Option Err :=
  match (retarget (close_if_open e)).direction with
  | Direction.UP => (retarget (close_if_open e)).up_1
  | Direction.DOWN => (retarget (close_if_open e)).down_1
  | Direction.NOWHERE => ({ retarget (close_if_open e) with moving_to := none }, none)

/-- `Elevator.validate`: note the source tests `type(self.LOWEST_FLOOR) != int`
twice (both disjuncts of the first condition name `LOWEST_FLOOR`); the type
of `HIGHEST_FLOOR` is never inspected. -/
def validate (lowest highest : PyNum) : Option Err :=
  if !lowest.isInt || !lowest.isInt then some Err.invalidConfig
  else if lowest.toRat > 0 then some Err.invalidConfig
  else if highest.toRat ≤ 0 then some Err.invalidConfig
  else if lowest.toRat ≥ highest.toRat then some Err.invalidConfig
  else none

end Elevator

/-- `Elevator.__init__` restricted to `int` arguments: the door starts
closed, the floor at 0, no destination, nobody aboard; then `validate`
runs and a failure aborts construction. -/
def mkElevator (lowest_floor highest_floor : Int) (id : Nat) : Except Err Elevator :=
  match Elevator.validate (PyNum.pint lowest_floor) (PyNum.pint highest_floor) with
  | some err => Except.error err
  | none =>
    Except.ok
      { door := { is_open := false }
        floor := 0
        HIGHEST_FLOOR := highest_floor
        LOWEST_FLOOR := lowest_floor
        moving_to := none
        people := []
        id := id }

structure Controller where
  elevators : List Elevator
deriving DecidableEq

/-- Eligibility test inside `Controller.call_elevator_for`: both the enter
and the exit floor of the person lie within the elevator's bounds. -/
def eligible (person : Person) (e : Elevator) : Bool :=
  decide (e.LOWEST_FLOOR ≤ person.enter_floor) &&
  decide (person.enter_floor ≤ e.HIGHEST_FLOOR) &&
  decide (e.LOWEST_FLOOR ≤ person.exit_floor) &&
  decide (person.exit_floor ≤ e.HIGHEST_FLOOR)

/-- `abs(person.enter_floor - elevator.floor)` from `call_elevator_for`. -/
def floorDifference (person : Person) (e : Elevator) : Int :=
  |person.enter_floor - e.floor|

/-- Elevators paired with their position in the controller's list, so the
in-place mutation of the chosen elevator can be modelled by `List.set`. -/
def enumF : Nat → List Elevator → List (Nat × Elevator)
  | _, [] => []
  | n, e :: es => (n, e) :: enumF (n + 1) es

/-- The selection loop of `call_elevator_for`: scan the (indexed) free
elevators left to right keeping the best candidate, a new candidate winning
only on a strictly smaller floor difference (`float("inf")` is the `none`
accumulator). -/
def best_loop (person : Person) :
    List (Nat × Elevator) → Option ((Nat × Elevator) × Int) → Option ((Nat × Elevator) × Int)
  | [], best => best
  | ie :: rest, best =>
    if eligible person ie.2 then
      let d := floorDifference person ie.2
      match best with
      | none => best_loop person rest (some (ie, d))
      | some (je, m) =>
        if d < m then best_loop person rest (some (ie, d))
        else best_loop person rest (some (je, m))
    else best_loop person rest best

namespace Controller

/-- `Controller.free_elevators`: raises when no elevator is configured,
otherwise the subsequence of free elevators. -/
def free_elevators (c : Controller) : Except Err (List Elevator) :=
  if c.elevators.isEmpty then Except.error Err.noElevators
  else Except.ok (c.elevators.filter Elevator.is_free)

/-- `Controller.call_elevator_for`: iterate `free_elevators` (so the
`NoElevatorsError` of an empty controller propagates), pick the eligible
elevator with the strictly smallest floor difference (first one wins ties),
command it toward the person's enter floor via `move_to`, and return it
(identified here by its position in `elevators`); `none` when no eligible
free elevator exists. -/
def call_elevator_for (c : Controller) (person : Person) :
    Except Err (Option Nat × Controller) :=
  if c.elevators.isEmpty then Except.error Err.noElevators
  else
    let free := (enumF 0 c.elevators).filter (fun ie => ie.2.is_free)
    match best_loop person free none with
    | none => Except.ok (none, c)
    | some (ie, _) =>
      Except.ok (some ie.1,
        { elevators := c.elevators.set ie.1 (ie.2.move_to person.enter_floor) })

end Controller

/-- Remove the first person with the given id from the list (`list.remove`
removes the first element comparing equal; `Person` equality in the source
is object identity, and ids are unique, so the id identifies the object). -/
def removeFirstId : List Person → Nat → List Person
  | [], _ => []
  | p :: rest, i => if p.id == i then rest else p :: removeFirstId rest i

/-- `Program.remove_person_to_lift`, restricted to its effect on the
elevator: open the door if closed, remove the person from `people`, and
clear `moving_to` when nobody is left aboard. -/
def remove_person_to_lift (e : Elevator) (p : Person) : Elevator :=
  let e1 := if e.door.is_open then e else { e with door := { is_open := true } }
  let ppl := removeFirstId e1.people p.id
  if ppl.isEmpty then { e1 with people := ppl, moving_to := none }
  else { e1 with people := ppl }

/-- The loop `for person in elevator.people_leaving: remove_person_to_lift(...)`
of `Program.next`.  The generator `people_leaving` iterates over the very
list the loop body mutates; a Python `list_iterator` holds a bare index `j`
into the current list, which this loop models exactly.  `fuel` only bounds
the number of iterations (each either advances `j` or shortens the list, so
`length + 1` steps always suffice). -/
def removalLoop : Nat → Elevator → Nat → Elevator
  | 0, e, _ => e
  | fuel + 1, e, j =>
    if h : j < e.people.length then
      let p := e.people.get ⟨j, h⟩
      if p.exit_floor == e.floor then
        removalLoop fuel (remove_person_to_lift e p) (j + 1)
      else removalLoop fuel e (j + 1)
    else e

/-- The removal phase of `Program.next` for one elevator. -/
def removal_phase (e : Elevator) : Elevator :=
  removalLoop (e.people.length + 1) e 0

/-- Concrete elevator with destination 0 strictly above its current floor. -/
def exC1 : Elevator :=
  { door := { is_open := false }, floor := -1, HIGHEST_FLOOR := 4,
    LOWEST_FLOOR := -2, moving_to := some 0, people := [], id := 1 }

/-- Concrete elevator whose door is open. -/
def exC7 : Elevator :=
  { door := { is_open := true }, floor := 2, HIGHEST_FLOOR := 4,
    LOWEST_FLOOR := -1, moving_to := some 3, people := [], id := 1 }

/-- Concrete elevator sitting at its highest floor with the door closed. -/
def exC6 : Elevator :=
  { door := { is_open := false }, floor := 4, HIGHEST_FLOOR := 4,
    LOWEST_FLOOR := -1, moving_to := some 6, people := [], id := 1 }

/-- Two passengers who both want to get off at floor 0. -/
def pC8a : Person := { name := "A", enter_floor := 2, exit_floor := 0, id := 1 }

def pC8b : Person := { name := "B", enter_floor := 2, exit_floor := 0, id := 2 }

/-- Concrete elevator standing at floor 0 with two passengers aboard whose
exit floor is 0, stored consecutively. -/
def exC8 : Elevator :=
  { door := { is_open := false }, floor := 0, HIGHEST_FLOOR := 4,
    LOWEST_FLOOR := -1, moving_to := some 0, people := [pC8a, pC8b], id := 1 }

def pC3a : Person := { name := "A", enter_floor := 0, exit_floor := 3, id := 1 }

def pC3b : Person := { name := "B", enter_floor := 0, exit_floor := -2, id := 2 }

/-- Concrete elevator at floor 0 carrying passengers bound for floors 3
(boarded first) and -2. -/
def exC3 : Elevator :=
  { door := { is_open := false }, floor := 0, HIGHEST_FLOOR := 4,
    LOWEST_FLOOR := -2, moving_to := some 3, people := [pC3a, pC3b], id := 1 }

def pC4 : Person := { name := "W", enter_floor := 6, exit_floor := 0, id := 1 }

/-- Three free elevators at floors 0, 5 and 10, all covering [-5, 15]. -/
def exC4a : Elevator :=
  { door := { is_open := false }, floor := 0, HIGHEST_FLOOR := 15,
    LOWEST_FLOOR := -5, moving_to := none, people := [], id := 1 }

def exC4b : Elevator :=
  { door := { is_open := false }, floor := 5, HIGHEST_FLOOR := 15,
    LOWEST_FLOOR := -5, moving_to := none, people := [], id := 2 }

def exC4c : Elevator :=
  { door := { is_open := false }, floor := 10, HIGHEST_FLOOR := 15,
    LOWEST_FLOOR := -5, moving_to := none, people := [], id := 3 }

def exC4 : Controller := { elevators := [exC4a, exC4b, exC4c] }

def pC9 : Person := { name := "P", enter_floor := 0, exit_floor := 1, id := 1 }

/-- A busy elevator (committed destination), hence not free. -/
def exC9 : Elevator :=
  { door := { is_open := false }, floor := 0, HIGHEST_FLOOR := 4,
    LOWEST_FLOOR := -1, moving_to := some 3, people := [], id := 1 }

def pC2 : Person := { name := "J", enter_floor := 0, exit_floor := 3, id := 1 }

/-- Concrete elevator at floor 0, door open, one passenger bound for
floor 3 aboard and no committed destination yet. -/
def exC2 : Elevator :=
  { door := { is_open := true }, floor := 0, HIGHEST_FLOOR := 4,
    LOWEST_FLOOR := -1, moving_to := none, people := [pC2], id := 1 }

@[simp] lemma close_if_open_door (e : Elevator) :
    (Elevator.close_if_open e).door.is_open = false := by
  unfold Elevator.close_if_open
  split
  · rfl
  · simp_all

@[simp] lemma close_if_open_floor (e : Elevator) :
    (Elevator.close_if_open e).floor = e.floor := by
  unfold Elevator.close_if_open
  split <;> rfl

@[simp] lemma close_if_open_low (e : Elevator) :
    (Elevator.close_if_open e).LOWEST_FLOOR = e.LOWEST_FLOOR := by
  unfold Elevator.close_if_open
  split <;> rfl

@[simp] lemma close_if_open_high (e : Elevator) :
    (Elevator.close_if_open e).HIGHEST_FLOOR = e.HIGHEST_FLOOR := by
  unfold Elevator.close_if_open
  split <;> rfl

@[simp] lemma close_if_open_moving_to (e : Elevator) :
    (Elevator.close_if_open e).moving_to = e.moving_to := by
  unfold Elevator.close_if_open
  split <;> rfl

@[simp] lemma close_if_open_people (e : Elevator) :
    (Elevator.close_if_open e).people = e.people := by
  unfold Elevator.close_if_open
  split <;> rfl

@[simp] lemma close_if_open_stop_queue (e : Elevator) :
    (Elevator.close_if_open e).stop_queue = e.stop_queue := by
  unfold Elevator.close_if_open
  split <;> rfl

@[simp] lemma retarget_door (e : Elevator) :
    (Elevator.retarget e).door = e.door := by
  unfold Elevator.retarget
  split <;> rfl

@[simp] lemma retarget_floor (e : Elevator) :
    (Elevator.retarget e).floor = e.floor := by
  unfold Elevator.retarget
  split <;> rfl

@[simp] lemma retarget_low (e : Elevator) :
    (Elevator.retarget e).LOWEST_FLOOR = e.LOWEST_FLOOR := by
  unfold Elevator.retarget
  split <;> rfl

@[simp] lemma retarget_high (e : Elevator) :
    (Elevator.retarget e).HIGHEST_FLOOR = e.HIGHEST_FLOOR := by
  unfold Elevator.retarget
  split <;> rfl

@[simp] lemma retarget_people (e : Elevator) :
    (Elevator.retarget e).people = e.people := by
  unfold Elevator.retarget
  split <;> rfl

lemma up_1_floor_bounds (e : Elevator)
    (h1 : e.LOWEST_FLOOR ≤ e.floor) (h2 : e.floor ≤ e.HIGHEST_FLOOR) :
    e.LOWEST_FLOOR ≤ e.up_1.1.floor ∧ e.up_1.1.floor ≤ e.HIGHEST_FLOOR := by
  unfold Elevator.up_1
  split_ifs <;> simp <;> omega

lemma down_1_floor_bounds (e : Elevator)
    (h1 : e.LOWEST_FLOOR ≤ e.floor) (h2 : e.floor ≤ e.HIGHEST_FLOOR) :
    e.LOWEST_FLOOR ≤ e.down_1.1.floor ∧ e.down_1.1.floor ≤ e.HIGHEST_FLOOR := by
  unfold Elevator.down_1
  split_ifs <;> simp <;> omega

/-- C1: the claim states that an elevator with destinationFloor 0 strictly
above its currentFloor has direction UP.  The code tests
`if not self.moving_to`, and Python's `not 0` is `True`, so destination 0
is treated like an unset destination: the direction is NOWHERE, and the
same truthiness makes the elevator report itself free. -/
theorem direction_zero_destination_is_NOWHERE :
    Elevator.direction exC1 = Direction.NOWHERE ∧ Elevator.is_free exC1 = true := by
  constructor
  · rfl
  · rfl

/-- C5: the claim states construction raises InvalidElevatorConfig whenever
either bound is non-integer; but `validate` tests the type of
`LOWEST_FLOOR` in both disjuncts of its type check and never inspects the
type of `HIGHEST_FLOOR`, so `Elevator(0, 1.5)` validates successfully. -/
theorem validate_accepts_noninteger_highest :
    Elevator.validate (PyNum.pint 0) (PyNum.pfloat (3 / 2)) = none ∧
    PyNum.isInt (PyNum.pfloat (3 / 2)) = false := by
  constructor
  · norm_num [Elevator.validate, PyNum.toRat, PyNum.isInt]
  · rfl

/-- C7: a single up-step or down-step while the door is open fails with
DoorObstructionError and returns the state unchanged (in particular the
current floor is unchanged), since the raise precedes any mutation. -/
theorem step_with_open_door_fails (e : Elevator) (h : e.door.is_open = true) :
    e.up_1 = (e, some Err.doorObstruction) ∧
    e.down_1 = (e, some Err.doorObstruction) := by
  unfold Elevator.up_1 Elevator.down_1
  simp [h]

theorem step_with_open_door_fails_witness :
    Elevator.up_1 exC7 = (exC7, some Err.doorObstruction) ∧
    Elevator.down_1 exC7 = (exC7, some Err.doorObstruction) :=
  step_with_open_door_fails exC7 rfl

/-- C10: `move` can never fail with DoorObstructionError: its first step
closes an open door, and the retargeting step does not touch the door, so
the door-open branches of `up_1` and `down_1` are unreachable from `move`. -/
theorem move_never_door_obstruction (e : Elevator) :
    (Elevator.move e).2 ≠ some Err.doorObstruction := by
  have hd : (Elevator.retarget (Elevator.close_if_open e)).door.is_open = false := by
    rw [retarget_door, close_if_open_door]
  unfold Elevator.move
  split
  · unfold Elevator.up_1
    simp [hd]
    split <;> simp
  · unfold Elevator.down_1
    simp [hd]
    split <;> simp
  · simp

/-- C6: the current floor never leaves `[LOWEST_FLOOR, HIGHEST_FLOOR]`:
`up_1`, `down_1` and `move` all preserve the interval, a closed-door
up-step from the highest floor fails with FloorBoundError leaving the
state unchanged, and symmetrically for a down-step from the lowest floor. -/
theorem floor_stays_in_bounds (e : Elevator)
    (h1 : e.LOWEST_FLOOR ≤ e.floor) (h2 : e.floor ≤ e.HIGHEST_FLOOR) :
    (e.LOWEST_FLOOR ≤ e.up_1.1.floor ∧ e.up_1.1.floor ≤ e.HIGHEST_FLOOR) ∧
    (e.LOWEST_FLOOR ≤ e.down_1.1.floor ∧ e.down_1.1.floor ≤ e.HIGHEST_FLOOR) ∧
    (e.LOWEST_FLOOR ≤ e.move.1.floor ∧ e.move.1.floor ≤ e.HIGHEST_FLOOR) ∧
    (e.door.is_open = false → e.floor = e.HIGHEST_FLOOR →
      e.up_1 = (e, some Err.floorBound)) ∧
    (e.door.is_open = false → e.floor = e.LOWEST_FLOOR →
      e.down_1 = (e, some Err.floorBound)) := by
  have hfl : (Elevator.retarget (Elevator.close_if_open e)).floor = e.floor := by simp
  have hlo : (Elevator.retarget (Elevator.close_if_open e)).LOWEST_FLOOR
      = e.LOWEST_FLOOR := by simp
  have hhi : (Elevator.retarget (Elevator.close_if_open e)).HIGHEST_FLOOR
      = e.HIGHEST_FLOOR := by simp
  refine ⟨up_1_floor_bounds e h1 h2, down_1_floor_bounds e h1 h2, ?_, ?_, ?_⟩
  · unfold Elevator.move
    split
    · have h := up_1_floor_bounds (Elevator.retarget (Elevator.close_if_open e))
        (by rw [hlo, hfl]; exact h1) (by rw [hhi, hfl]; exact h2)
      rw [hlo, hhi] at h
      exact h
    · have h := down_1_floor_bounds (Elevator.retarget (Elevator.close_if_open e))
        (by rw [hlo, hfl]; exact h1) (by rw [hhi, hfl]; exact h2)
      rw [hlo, hhi] at h
      exact h
    · simpa [hfl] using ⟨h1, h2⟩
  · intro hdoor htop
    unfold Elevator.up_1
    rw [hdoor]
    simp only [Bool.false_eq_true, if_false]
    rw [if_pos (by omega)]
  · intro hdoor hbot
    unfold Elevator.down_1
    rw [hdoor]
    simp only [Bool.false_eq_true, if_false]
    rw [if_pos (by omega)]

theorem floor_stays_in_bounds_witness :
    Elevator.up_1 exC6 = (exC6, some Err.floorBound) :=
  (floor_stays_in_bounds exC6 (by decide) (by decide)).2.2.2.1 rfl rfl

/-- C8: the claim states that after the removal phase nobody whose exit
floor equals the current floor remains aboard.  The phase iterates the
`people_leaving` generator over the very list it removes from, so after the
first passenger at index j is removed the iterator resumes at index j+1 of
the shortened list: with two consecutive leavers the second one is skipped
and stays aboard at their destination. -/
theorem removal_phase_leaves_second_leaver :
    (removal_phase exC8).people = [pC8b] ∧
    pC8b.exit_floor = (removal_phase exC8).floor := by
  constructor
  · rfl
  · rfl

/-- C3: `stop_queue` is `none` exactly when nobody is aboard, and otherwise
filters the aboard exit floors (order and duplicates preserved) to those
strictly on the same side of the current floor as the earliest-boarded
passenger's exit floor (the head of `stops`); when that head equals the
current floor no floor is on its side and the queue is empty. -/
theorem stop_queue_same_side (e : Elevator) :
    (e.people = [] → e.stop_queue = none) ∧
    (∀ a l, e.stops = a :: l →
      e.stop_queue = some ((a :: l).filter
        (fun f => (decide (e.floor < a) && decide (e.floor < f)) ||
                  (decide (a < e.floor) && decide (f < e.floor))))) := by
  constructor
  · intro hp
    have hs : e.stops = [] := by simp [Elevator.stops, hp]
    unfold Elevator.stop_queue
    rw [hs]
  · intro a l hs
    unfold Elevator.stop_queue
    rw [hs]
    dsimp only
    by_cases hup : a > e.floor
    · rw [if_pos hup]
      have hnd : ¬ (a < e.floor) := by omega
      congr 1
      apply List.filter_congr
      intro f hf
      simp [hup, hnd]
    · by_cases hdn : a < e.floor
      · rw [if_neg hup, if_pos hdn]
        have hnu : ¬ (e.floor < a) := by omega
        congr 1
        apply List.filter_congr
        intro f hf
        simp [hdn, hnu]
      · rw [if_neg hup, if_neg hdn]
        have ha : a = e.floor := by omega
        congr 1
        symm
        rw [List.filter_eq_nil_iff]
        intro f hf
        simp [ha]

theorem stop_queue_same_side_witness :
    Elevator.stop_queue exC3 = some [3] := by
  rw [(stop_queue_same_side exC3).2 3 [-2] rfl]
  rfl

lemma direction_eq_UP_iff (e : Elevator) :
    e.direction = Direction.UP ↔
      ∃ m, e.moving_to = some m ∧ m ≠ 0 ∧ e.floor < m := by
  unfold Elevator.direction
  cases h : e.moving_to with
  | none => simp [h, pyTruthy]
  | some m =>
    by_cases hm : m = 0
    · simp [h, hm, pyTruthy]
    · by_cases hgt : e.floor < m
      · simp [h, hm, pyTruthy, hgt]
      · by_cases hlt : m < e.floor
        · simp [h, hm, pyTruthy, hgt, hlt]
        · simp [h, hm, pyTruthy, hgt, hlt]

lemma direction_eq_DOWN_iff (e : Elevator) :
    e.direction = Direction.DOWN ↔
      ∃ m, e.moving_to = some m ∧ m ≠ 0 ∧ m < e.floor := by
  unfold Elevator.direction
  cases h : e.moving_to with
  | none => simp [h, pyTruthy]
  | some m =>
    by_cases hm : m = 0
    · simp [h, hm, pyTruthy]
    · by_cases hgt : e.floor < m
      · simp [h, hm, pyTruthy, hgt]
        omega
      · by_cases hlt : m < e.floor
        · simp [h, hm, pyTruthy, hgt, hlt]
        · simp [h, hm, pyTruthy, hgt, hlt]

/-- C2: one tick of `move`.  In the order of the claim: the door ends up
closed by step 1; step 2 retargets `moving_to` to the last element of the
stop queue whenever that queue is a non-empty list and leaves it alone
otherwise; step 3 then steps the floor by +1 when the post-retarget
direction is UP, by -1 when it is DOWN, and clears `moving_to` (leaving the
floor unchanged) when it is NOWHERE.  The hypothesis is the documented data
invariant that the destination, when set, lies within the floor bounds —
exactly what rules out the bound-error branches of `up_1`/`down_1`. -/
theorem move_one_tick (e : Elevator)
    (hb : ∀ m, (Elevator.retarget (Elevator.close_if_open e)).moving_to = some m →
        e.LOWEST_FLOOR ≤ m ∧ m ≤ e.HIGHEST_FLOOR) :
    (Elevator.close_if_open e).door.is_open = false ∧
    (∀ a l, e.stop_queue = some (a :: l) →
      (Elevator.retarget (Elevator.close_if_open e)).moving_to =
        some ((a :: l).getLast (List.cons_ne_nil a l))) ∧
    (e.stop_queue = none ∨ e.stop_queue = some [] →
      (Elevator.retarget (Elevator.close_if_open e)).moving_to = e.moving_to) ∧
    ((Elevator.retarget (Elevator.close_if_open e)).direction = Direction.UP →
      e.move = ({ Elevator.retarget (Elevator.close_if_open e) with
        floor := e.floor + 1 }, none)) ∧
    ((Elevator.retarget (Elevator.close_if_open e)).direction = Direction.DOWN →
      e.move = ({ Elevator.retarget (Elevator.close_if_open e) with
        floor := e.floor - 1 }, none)) ∧
    ((Elevator.retarget (Elevator.close_if_open e)).direction = Direction.NOWHERE →
      e.move = ({ Elevator.retarget (Elevator.close_if_open e) with
        moving_to := none }, none)) := by
  have hdoor : (Elevator.retarget (Elevator.close_if_open e)).door.is_open = false := by
    rw [retarget_door, close_if_open_door]
  have hfl : (Elevator.retarget (Elevator.close_if_open e)).floor = e.floor := by simp
  have hhi : (Elevator.retarget (Elevator.close_if_open e)).HIGHEST_FLOOR
      = e.HIGHEST_FLOOR := by simp
  have hlo : (Elevator.retarget (Elevator.close_if_open e)).LOWEST_FLOOR
      = e.LOWEST_FLOOR := by simp
  refine ⟨close_if_open_door e, ?_, ?_, ?_, ?_, ?_⟩
  · intro a l hq
    unfold Elevator.retarget
    rw [close_if_open_stop_queue, hq]
  · intro hq
    unfold Elevator.retarget
    rw [close_if_open_stop_queue]
    rcases hq with hq | hq <;> rw [hq] <;> simp
  · intro hdir
    obtain ⟨m, hm, hm0, hmf⟩ := (direction_eq_UP_iff _).mp hdir
    have hmb := hb m hm
    unfold Elevator.move
    rw [hdir]
    unfold Elevator.up_1
    rw [hdoor]
    simp only [Bool.false_eq_true, if_false]
    rw [if_neg (by rw [hfl, hhi]; omega), hfl]
  · intro hdir
    obtain ⟨m, hm, hm0, hmf⟩ := (direction_eq_DOWN_iff _).mp hdir
    have hmb := hb m hm
    unfold Elevator.move
    rw [hdir]
    unfold Elevator.down_1
    rw [hdoor]
    simp only [Bool.false_eq_true, if_false]
    rw [if_neg (by rw [hfl, hlo]; omega), hfl]
  · intro hdir
    unfold Elevator.move
    rw [hdir]

theorem move_one_tick_witness :
    Elevator.move exC2 =
      ({ Elevator.retarget (Elevator.close_if_open exC2) with
        floor := exC2.floor + 1 }, none) := by
  have h := move_one_tick exC2 (by
    intro m hm
    rw [show (Elevator.retarget (Elevator.close_if_open exC2)).moving_to
        = some 3 from rfl] at hm
    cases hm
    exact ⟨by decide, by decide⟩)
  exact h.2.2.2.1 rfl

lemma best_loop_cons_elig_none (p : Person) (a : Nat × Elevator)
    (rest : List (Nat × Elevator)) (he : eligible p a.2 = true) :
    best_loop p (a :: rest) none =
      best_loop p rest (some (a, floorDifference p a.2)) := by
  simp [best_loop, he]

lemma best_loop_cons_elig_some (p : Person) (a : Nat × Elevator)
    (rest : List (Nat × Elevator)) (b : (Nat × Elevator) × Int)
    (he : eligible p a.2 = true) :
    best_loop p (a :: rest) (some b) =
      if floorDifference p a.2 < b.2 then
        best_loop p rest (some (a, floorDifference p a.2))
      else best_loop p rest (some b) := by
  obtain ⟨b1, b2⟩ := b
  simp [best_loop, he]

lemma best_loop_cons_inelig (p : Person) (a : Nat × Elevator)
    (rest : List (Nat × Elevator)) (best : Option ((Nat × Elevator) × Int))
    (he : eligible p a.2 = false) :
    best_loop p (a :: rest) best = best_loop p rest best := by
  simp [best_loop, he]

lemma best_loop_no_eligible (p : Person) :
    ∀ l : List (Nat × Elevator), (∀ jf ∈ l, eligible p jf.2 = false) →
      best_loop p l none = none := by
  intro l
  induction l with
  | nil => intro h; rfl
  | cons a rest ih =>
    intro h
    rw [best_loop_cons_inelig p a rest none (h a (List.mem_cons_self a rest))]
    exact ih (fun jf hjf => h jf (List.mem_cons_of_mem a hjf))

lemma best_loop_keep (p : Person) :
    ∀ (l : List (Nat × Elevator)) (b : (Nat × Elevator) × Int),
      (∀ jf ∈ l, eligible p jf.2 = true → b.2 ≤ floorDifference p jf.2) →
      best_loop p l (some b) = some b := by
  intro l
  induction l with
  | nil => intro b _; rfl
  | cons a rest ih =>
    intro b h
    cases he : eligible p a.2 with
    | false =>
      rw [best_loop_cons_inelig p a rest (some b) he]
      exact ih b (fun jf hjf hel => h jf (List.mem_cons_of_mem a hjf) hel)
    | true =>
      rw [best_loop_cons_elig_some p a rest b he,
        if_neg (by have := h a (List.mem_cons_self a rest) he; omega)]
      exact ih b (fun jf hjf hel => h jf (List.mem_cons_of_mem a hjf) hel)

lemma best_loop_first_strict (p : Person) :
    ∀ (l : List (Nat × Elevator)) (i : Nat) (e : Elevator)
      (b : (Nat × Elevator) × Int),
      l.Pairwise (fun x y => x.1 < y.1) →
      (i, e) ∈ l → eligible p e = true →
      (∀ jf ∈ l, eligible p jf.2 = true →
        floorDifference p e ≤ floorDifference p jf.2) →
      (∀ jf ∈ l, eligible p jf.2 = true →
        floorDifference p jf.2 = floorDifference p e → i ≤ jf.1) →
      floorDifference p e < b.2 →
      best_loop p l (some b) = some ((i, e), floorDifference p e) := by
  intro l
  induction l with
  | nil => intro i e b _ hmem; exact absurd hmem (List.not_mem_nil _)
  | cons a rest ih =>
    intro i e b hpw hmem helig hmin hfirst hlt
    have hpw' := (List.pairwise_cons.mp hpw).2
    have hhead := (List.pairwise_cons.mp hpw).1
    rcases List.mem_cons.mp hmem with heq | hmem'
    · subst heq
      rw [best_loop_cons_elig_some p (i, e) rest b helig, if_pos hlt]
      exact best_loop_keep p rest ((i, e), floorDifference p e)
        (fun jf hjf hel => hmin jf (List.mem_cons_of_mem _ hjf) hel)
    · have hai : a.1 < i := hhead (i, e) hmem'
      cases he : eligible p a.2 with
      | false =>
        rw [best_loop_cons_inelig p a rest (some b) he]
        exact ih i e b hpw' hmem' helig
          (fun jf hjf hel => hmin jf (List.mem_cons_of_mem a hjf) hel)
          (fun jf hjf hel hEq => hfirst jf (List.mem_cons_of_mem a hjf) hel hEq) hlt
      | true =>
        have h1 : floorDifference p e ≤ floorDifference p a.2 :=
          hmin a (List.mem_cons_self a rest) he
        have h2 : floorDifference p a.2 ≠ floorDifference p e := by
          intro hEq
          have := hfirst a (List.mem_cons_self a rest) he hEq
          omega
        have h3 : floorDifference p e < floorDifference p a.2 := by omega
        rw [best_loop_cons_elig_some p a rest b he]
        by_cases hc : floorDifference p a.2 < b.2
        · rw [if_pos hc]
          exact ih i e (a, floorDifference p a.2) hpw' hmem' helig
            (fun jf hjf hel => hmin jf (List.mem_cons_of_mem a hjf) hel)
            (fun jf hjf hel hEq => hfirst jf (List.mem_cons_of_mem a hjf) hel hEq) h3
        · rw [if_neg hc]
          exact ih i e b hpw' hmem' helig
            (fun jf hjf hel => hmin jf (List.mem_cons_of_mem a hjf) hel)
            (fun jf hjf hel hEq => hfirst jf (List.mem_cons_of_mem a hjf) hel hEq) hlt

lemma best_loop_first (p : Person) :
    ∀ (l : List (Nat × Elevator)) (i : Nat) (e : Elevator),
      l.Pairwise (fun x y => x.1 < y.1) →
      (i, e) ∈ l → eligible p e = true →
      (∀ jf ∈ l, eligible p jf.2 = true →
        floorDifference p e ≤ floorDifference p jf.2) →
      (∀ jf ∈ l, eligible p jf.2 = true →
        floorDifference p jf.2 = floorDifference p e → i ≤ jf.1) →
      best_loop p l none = some ((i, e), floorDifference p e) := by
  intro l
  induction l with
  | nil => intro i e _ hmem; exact absurd hmem (List.not_mem_nil _)
  | cons a rest ih =>
    intro i e hpw hmem helig hmin hfirst
    have hpw' := (List.pairwise_cons.mp hpw).2
    have hhead := (List.pairwise_cons.mp hpw).1
    rcases List.mem_cons.mp hmem with heq | hmem'
    · subst heq
      rw [best_loop_cons_elig_none p (i, e) rest helig]
      exact best_loop_keep p rest ((i, e), floorDifference p e)
        (fun jf hjf hel => hmin jf (List.mem_cons_of_mem _ hjf) hel)
    · have hai : a.1 < i := hhead (i, e) hmem'
      cases he : eligible p a.2 with
      | false =>
        rw [best_loop_cons_inelig p a rest none he]
        exact ih i e hpw' hmem' helig
          (fun jf hjf hel => hmin jf (List.mem_cons_of_mem a hjf) hel)
          (fun jf hjf hel hEq => hfirst jf (List.mem_cons_of_mem a hjf) hel hEq)
      | true =>
        have h1 : floorDifference p e ≤ floorDifference p a.2 :=
          hmin a (List.mem_cons_self a rest) he
        have h2 : floorDifference p a.2 ≠ floorDifference p e := by
          intro hEq
          have := hfirst a (List.mem_cons_self a rest) he hEq
          omega
        have h3 : floorDifference p e < floorDifference p a.2 := by omega
        rw [best_loop_cons_elig_none p a rest he]
        exact best_loop_first_strict p rest i e (a, floorDifference p a.2)
          hpw' hmem' helig
          (fun jf hjf hel => hmin jf (List.mem_cons_of_mem a hjf) hel)
          (fun jf hjf hel hEq => hfirst jf (List.mem_cons_of_mem a hjf) hel hEq) h3

lemma mem_enumF : ∀ (es : List Elevator) (n i : Nat) (e : Elevator),
    (i, e) ∈ enumF n es ↔ n ≤ i ∧ es[i - n]? = some e := by
  intro es
  induction es with
  | nil =>
    intro n i e
    simp [enumF]
  | cons a as ih =>
    intro n i e
    simp only [enumF, List.mem_cons, ih (n + 1) i e]
    constructor
    · rintro (heq | ⟨h1, h2⟩)
      · injection heq with hi ha
        subst hi
        subst ha
        refine ⟨Nat.le_refl i, ?_⟩
        simp [Nat.sub_self]
      · refine ⟨by omega, ?_⟩
        have hsub : i - n = (i - (n + 1)) + 1 := by omega
        rw [hsub, List.getElem?_cons_succ]
        exact h2
    · rintro ⟨h1, h2⟩
      by_cases hin : i = n
      · left
        subst hin
        rw [Nat.sub_self] at h2
        rw [List.getElem?_cons_zero] at h2
        injection h2 with h2
        rw [h2]
      · right
        have hn1 : n + 1 ≤ i := by omega
        refine ⟨hn1, ?_⟩
        have hsub : i - n = (i - (n + 1)) + 1 := by omega
        rw [hsub, List.getElem?_cons_succ] at h2
        exact h2

lemma pairwise_enumF : ∀ (es : List Elevator) (n : Nat),
    (enumF n es).Pairwise (fun x y => x.1 < y.1) := by
  intro es
  induction es with
  | nil => intro n; simp [enumF]
  | cons a as ih =>
    intro n
    simp only [enumF, List.pairwise_cons]
    refine ⟨?_, ih (n + 1)⟩
    rintro ⟨j, f⟩ hj
    have h1 := ((mem_enumF as (n + 1) j f).mp hj).1
    show n < j
    omega

/-- C4: with at least one elevator configured, if index i holds a free
elevator e eligible for both of the person's floors, whose floor difference
to the person's enter floor is minimal among free eligible elevators and
which is the first (lowest index) among the minimizers, then
`call_elevator_for` selects exactly that elevator, sets its destination to
the person's enter floor and returns it. -/
theorem call_elevator_for_picks_nearest (c : Controller) (p : Person)
    (i : Nat) (e : Elevator)
    (hi : c.elevators[i]? = some e)
    (hfree : e.is_free = true)
    (helig : eligible p e = true)
    (hmin : ∀ (j : Nat) (f : Elevator), c.elevators[j]? = some f →
      f.is_free = true → eligible p f = true →
      floorDifference p e ≤ floorDifference p f)
    (hfirst : ∀ (j : Nat) (f : Elevator), c.elevators[j]? = some f →
      f.is_free = true → eligible p f = true →
      floorDifference p f = floorDifference p e → i ≤ j) :
    c.call_elevator_for p =
      Except.ok (some i,
        { elevators := c.elevators.set i (e.move_to p.enter_floor) }) := by
  have hne : c.elevators.isEmpty = false := by
    cases hc : c.elevators with
    | nil => rw [hc] at hi; simp at hi
    | cons a l => rfl
  have hmem : (i, e) ∈ (enumF 0 c.elevators).filter (fun ie => ie.2.is_free) := by
    apply List.mem_filter.mpr
    exact ⟨(mem_enumF c.elevators 0 i e).mpr ⟨Nat.zero_le i, by simpa using hi⟩, hfree⟩
  have hpw : ((enumF 0 c.elevators).filter
      (fun ie => ie.2.is_free)).Pairwise (fun x y => x.1 < y.1) :=
    List.Pairwise.sublist (List.filter_sublist _) (pairwise_enumF c.elevators 0)
  have hmin' : ∀ jf ∈ (enumF 0 c.elevators).filter (fun ie => ie.2.is_free),
      eligible p jf.2 = true → floorDifference p e ≤ floorDifference p jf.2 := by
    rintro ⟨j, f⟩ hjf hel
    have hmf := List.mem_filter.mp hjf
    have hme := (mem_enumF c.elevators 0 j f).mp hmf.1
    exact hmin j f (by simpa using hme.2) hmf.2 hel
  have hfirst' : ∀ jf ∈ (enumF 0 c.elevators).filter (fun ie => ie.2.is_free),
      eligible p jf.2 = true →
      floorDifference p jf.2 = floorDifference p e → i ≤ jf.1 := by
    rintro ⟨j, f⟩ hjf hel hEq
    have hmf := List.mem_filter.mp hjf
    have hme := (mem_enumF c.elevators 0 j f).mp hmf.1
    exact hfirst j f (by simpa using hme.2) hmf.2 hel hEq
  have hbl := best_loop_first p ((enumF 0 c.elevators).filter
    (fun ie => ie.2.is_free)) i e hpw hmem helig hmin' hfirst'
  unfold Controller.call_elevator_for
  rw [hne]
  simp only [Bool.false_eq_true, if_false]
  rw [hbl]

theorem call_elevator_for_picks_nearest_witness :
    Controller.call_elevator_for exC4 pC4 =
      Except.ok (some 1,
        { elevators := exC4.elevators.set 1 (exC4b.move_to pC4.enter_floor) }) := by
  apply call_elevator_for_picks_nearest exC4 pC4 1 exC4b rfl rfl (by decide)
  · intro j f hj hfr hel
    rcases j with _ | _ | _ | j
    · have h : some exC4a = some f := hj
      cases h
      decide
    · have h : some exC4b = some f := hj
      cases h
      decide
    · have h : some exC4c = some f := hj
      cases h
      decide
    · have h : (none : Option Elevator) = some f := hj
      exact Option.noConfusion h
  · intro j f hj hfr hel hEq
    rcases j with _ | _ | _ | j
    · have h : some exC4a = some f := hj
      cases h
      exact absurd hEq (by decide)
    · exact Nat.le_refl 1
    · exact (by decide : (1 : Nat) ≤ 2)
    · have h : (none : Option Elevator) = some f := hj
      exact Option.noConfusion h

/-- C9 counterexample: the claim says a dispatcher with zero elevators
returns none; `call_elevator_for` iterates `free_elevators`, which raises
NoElevatorsError on an empty collection, so it errors instead. -/
theorem call_elevator_for_empty_controller_raises :
    Controller.call_elevator_for { elevators := [] } pC9
      = Except.error Err.noElevators ∧
    Controller.call_elevator_for { elevators := [] } pC9
      ≠ Except.ok (none, { elevators := [] }) := by
  constructor
  · rfl
  · intro h
    exact Except.noConfusion h

/-- C9 (amended): for a dispatcher with at least one elevator, when no free
elevator is eligible for the person's floors, `call_elevator_for` returns
none and leaves the controller (hence every elevator) unchanged; with zero
elevators it raises NoElevatorsError instead. -/
theorem call_elevator_for_none_when_no_candidate (c : Controller) (p : Person)
    (hne : c.elevators.isEmpty = false)
    (h : ∀ e ∈ c.elevators, e.is_free = true → eligible p e = false) :
    c.call_elevator_for p = Except.ok (none, c) := by
  have hbl : best_loop p ((enumF 0 c.elevators).filter
      (fun ie => ie.2.is_free)) none = none := by
    apply best_loop_no_eligible
    rintro ⟨j, f⟩ hjf
    have hmf := List.mem_filter.mp hjf
    have hme := (mem_enumF c.elevators 0 j f).mp hmf.1
    exact h f (List.getElem?_mem (by simpa using hme.2)) hmf.2
  unfold Controller.call_elevator_for
  rw [hne]
  simp only [Bool.false_eq_true, if_false]
  rw [hbl]

theorem call_elevator_for_none_when_no_candidate_witness :
    Controller.call_elevator_for { elevators := [exC9] } pC9 =
      Except.ok (none, { elevators := [exC9] }) := by
  apply call_elevator_for_none_when_no_candidate { elevators := [exC9] } pC9 rfl
  intro e he hf
  rw [List.mem_singleton] at he
  subst he
  exact absurd hf (by decide)

end ElevatorSim
